import Mathlib

set_option maxRecDepth 200000

/-!
# Verification of the search-server engines and protocol handler

Shallow embedding, in Lean 4, of the matching engines
(`src/search/algorithms/*.py`, `src/search/base.py`) and of the protocol
handler / engine registry (`src/server/server.py`) of the line-existence
search server, together with theorems settling the frozen claims about it.

Conventions used throughout the embedding:

* Python byte strings are `List Nat` (each element a byte value `0..255`);
  decoded Python `str` values are `List Nat` of Unicode code points at the
  protocol layer, and Lean `String` at the engine layer (corpora and
  queries in the engine theorems are code-point sequences; Lean `String`
  equality and lexicographic `<` agree with Python `str` equality and `<`).
* A file on disk is a `FileState`: its text `content` plus an `mtime`
  stamp, mirroring exactly what the Python code observes
  (`os.path.getmtime` and `open(...).read()`).
* Python `while` loops whose termination argument is extrinsic
  (Boyer-Moore shifting, the KMP automaton) are embedded with an explicit
  fuel counter large enough for every terminating run; fuel exhaustion is
  made observable as `Option.none` rather than silently defaulting.
-/

/-! ## Python string/byte primitives -/

/-- The byte values stripped by Python `bytes.rstrip()` with no argument:
space, tab, newline, carriage return, vertical tab, form feed. -/
def pyByteWS (b : Nat) : Bool :=
  b == 32 || b == 9 || b == 10 || b == 13 || b == 11 || b == 12

/-- Code points for which Python `str.isspace` holds (and which
`str.strip()` removes): ASCII whitespace, the C0 separators 0x1c-0x1f,
NEL, NBSP and the Unicode space/separator code points. -/
def pyStrWS (c : Nat) : Bool :=
  (9 ≤ c && c ≤ 13) || c == 32 || (28 ≤ c && c ≤ 31) || c == 0x85 ||
  c == 0xA0 || c == 0x1680 || (0x2000 ≤ c && c ≤ 0x200A) ||
  c == 0x2028 || c == 0x2029 || c == 0x202F || c == 0x205F || c == 0x3000

/-- Remove leading elements satisfying `p` (Python `lstrip`). -/
def stripLead (p : Nat → Bool) (l : List Nat) : List Nat :=
  l.dropWhile p

/-- Remove trailing elements satisfying `p` (Python `rstrip`). -/
def stripTrail (p : Nat → Bool) (l : List Nat) : List Nat :=
  (l.reverse.dropWhile p).reverse

/-- Python `str.strip()` on a list of code points. -/
def pyStrip (l : List Nat) : List Nat :=
  stripLead pyStrWS (stripTrail pyStrWS l)

/-- Python `data.rstrip(b"\x00")`: remove trailing NUL bytes. -/
def rstripNul (l : List Nat) : List Nat :=
  stripTrail (fun b => b == 0) l

/-- ASCII lower-casing of one code point (`str.lower()` restricted to
ASCII, where it agrees with the full Unicode mapping). -/
def lowerCp (c : Nat) : Nat :=
  if 65 ≤ c && c ≤ 90 then c + 32 else c

/-- Split a character list at every occurrence of `sep`, Python
`str.split(sep)` semantics: the empty list yields one empty piece, and a
trailing separator yields a trailing empty piece. -/
def splitOnSep (sep : Char) : List Char → List (List Char)
  | [] => [[]]
  | c :: rest =>
    match splitOnSep sep rest with
    | [] => [[]]
    | g :: gs => if c = sep then [] :: g :: gs else (c :: g) :: gs

/-- Characters stripped by `bytes.rstrip()` (ASCII whitespace), at the
character level. -/
def pyCharWS (c : Char) : Bool :=
  c == ' ' || c == '\t' || c == '\x0a' || c == '\x0d' || c == '\x0b' || c == '\x0c'

/-- `line.rstrip()` on a line kept as characters. -/
def rstripLine (l : List Char) : List Char :=
  (l.reverse.dropWhile pyCharWS).reverse

/-- ASCII lower-casing of one character.  (Python `str.lower()` is the
full Unicode mapping; every corpus and query in this development is
within ASCII, where the two agree.) -/
def lowerChar (c : Char) : Char :=
  if 'A' ≤ c && c ≤ 'Z' then Char.ofNat (c.toNat + 32) else c

/-- `str.lower()` restricted to ASCII. -/
def strLower (s : String) : String :=
  ⟨s.data.map lowerChar⟩

/-- The lines produced by iterating a binary file and applying
`line.rstrip()` to each, as done by every `_read_file` in the repository
except Boyer-Moore's: split on `\n`, drop the final empty piece produced
by a trailing terminator, and strip trailing ASCII whitespace from each
line.  (For the files considered here, UTF-8 decoding of the stripped
bytes is the identity on the character content.) -/
def fileLines (content : String) : List String :=
  let pieces := splitOnSep '\x0a' content.data
  let pieces := if pieces.getLast? = some [] then pieces.dropLast else pieces
  pieces.map (fun l => ⟨rstripLine l⟩)

/-- Boyer-Moore's `_read_file` instead does `file.read().split('\n')`:
no per-line stripping and no removal of a trailing empty piece. -/
def bmSplitNL (content : String) : List String :=
  (splitOnSep '\x0a' content.data).map (fun l => ⟨l⟩)

/-! ## UTF-8 (Python strict `decode` / `encode`) -/

/-- Is `b` a UTF-8 continuation byte (`0x80..0xBF`)? -/
def utf8Cont (b : Nat) : Bool :=
  0x80 ≤ b && b ≤ 0xBF

/-- One step of strict UTF-8 decoding: the code point encoded at the head
of the byte list and the remaining bytes, following the acceptance rules
of Python's `bytes.decode('utf-8')` (shortest form only, no surrogates,
maximum `U+10FFFF`).  `none` when Python would raise
`UnicodeDecodeError`; `some` consumes at least one byte. -/
def utf8Step : List Nat → Option (Nat × List Nat)
  | [] => none
  | b :: bs =>
    if b ≤ 0x7F then some (b, bs)
    else if 0xC2 ≤ b && b ≤ 0xDF then
      match bs with
      | b1 :: bs' =>
        if utf8Cont b1 then some ((b - 0xC0) * 0x40 + (b1 - 0x80), bs') else none
      | [] => none
    else if 0xE0 ≤ b && b ≤ 0xEF then
      match bs with
      | b1 :: b2 :: bs' =>
        let lo1 : Nat := if b = 0xE0 then 0xA0 else 0x80
        let hi1 : Nat := if b = 0xED then 0x9F else 0xBF
        if lo1 ≤ b1 && b1 ≤ hi1 && utf8Cont b2 then
          some ((b - 0xE0) * 0x1000 + (b1 - 0x80) * 0x40 + (b2 - 0x80), bs')
        else none
      | _ => none
    else if 0xF0 ≤ b && b ≤ 0xF4 then
      match bs with
      | b1 :: b2 :: b3 :: bs' =>
        let lo1 : Nat := if b = 0xF0 then 0x90 else 0x80
        let hi1 : Nat := if b = 0xF4 then 0x8F else 0xBF
        if lo1 ≤ b1 && b1 ≤ hi1 && utf8Cont b2 && utf8Cont b3 then
          some ((b - 0xF0) * 0x40000 + (b1 - 0x80) * 0x1000 +
                (b2 - 0x80) * 0x40 + (b3 - 0x80), bs')
        else none
      | _ => none
    else none

/-- Iterate `utf8Step`.  The fuel argument only bounds the number of
steps; since every step consumes at least one byte, `l.length` steps
always suffice (see `utf8Decode`). -/
def utf8DecodeF : Nat → List Nat → Option (List Nat)
  | _, [] => some []
  | 0, _ :: _ => none
  | fuel + 1, b :: bs =>
    match utf8Step (b :: bs) with
    | none => none
    | some (c, rest) => (utf8DecodeF fuel rest).map (c :: ·)

/-- Strict UTF-8 decoding of a byte list to code points:
`bytes.decode('utf-8')`, `none` for `UnicodeDecodeError`. -/
def utf8Decode (l : List Nat) : Option (List Nat) :=
  utf8DecodeF l.length l

/-- The test the receive loop applies to the part of a chunk before its
first newline: does it decode as UTF-8? -/
def utf8ValidB (l : List Nat) : Bool :=
  (utf8Decode l).isSome

/-- UTF-8 encoding of a list of code points (total; code points are
assumed `< 0x110000` and non-surrogate, which holds for all strings the
embedding manipulates). -/
def utf8EncodeCp (c : Nat) : List Nat :=
  if c ≤ 0x7F then [c]
  else if c ≤ 0x7FF then [0xC0 + c / 0x40, 0x80 + c % 0x40]
  else if c ≤ 0xFFFF then
    [0xE0 + c / 0x1000, 0x80 + c / 0x40 % 0x40, 0x80 + c % 0x40]
  else
    [0xF0 + c / 0x40000, 0x80 + c / 0x1000 % 0x40,
     0x80 + c / 0x40 % 0x40, 0x80 + c % 0x40]

/-- `query.encode('utf-8')` on a Lean string. -/
def utf8Encode (s : String) : List Nat :=
  s.data.flatMap (fun c => utf8EncodeCp c.toNat)

/-! ## Files and the shared corpus loader (`src/search/base.py`) -/

/-- A corpus file as the engines observe it: its text and its
modification stamp (`os.path.getmtime`). -/
structure FileState where
  content : String
  mtime : Nat
  deriving Repr, DecidableEq

/-- The mutable state `SearchAlgorithm._read_file` maintains:
`self._lines` and `self._last_modified`. -/
structure BaseState where
  lines : List String
  lastModified : Nat
  deriving Repr, DecidableEq

/-- `SearchAlgorithm._read_file` (base.py lines 70-106): if lines are
cached and the file's mtime has not increased, return without touching
the file; otherwise record the mtime and re-read every line, stripping
trailing whitespace, decoding, and lower-casing when case-insensitive. -/
def baseReadFile (caseSensitive : Bool) (fs : FileState) (st : BaseState) : BaseState :=
  if st.lines ≠ [] ∧ fs.mtime ≤ st.lastModified then st
  else
    { lines := (fileLines fs.content).map (fun l => if caseSensitive then l else strLower l),
      lastModified := fs.mtime }

/-! ## `SimpleSearch` (`algorithms/simple.py`) -/

/-- Python's `==` between a `str` and a `bytes` object never raises and
is always `False` (they are never equal, regardless of content).  This is
exactly the comparison `line == query_bytes.rstrip()` performs in
`SimpleSearch.search`, where `line` is a decoded `str` from the base
loader and `query_bytes` is `query.encode('utf-8') + b'\n'`. -/
def pyStrEqBytes (_s : String) (_b : List Nat) : Bool :=
  false

/-- `SimpleSearch.search` (simple.py lines 56-97) over the loaded
`_lines`: empty queries return `False` at once; otherwise every line
except the last (`self._lines[:-1]`) is compared, as a `str`, against the
`bytes` value `query_bytes.rstrip()`. -/
def simpleSearch (lines : List String) (q : String) : Bool :=
  if q = "" then false
  else
    let queryBytes := utf8Encode q ++ [10]
    lines.dropLast.any (fun line => pyStrEqBytes line (stripTrail pyByteWS queryBytes))

/-- `SimpleSearch`'s lines after construction with reread disabled: the
base loader, case-sensitively (its `__init__` passes no flag). -/
def simpleInit (fs : FileState) : List String :=
  (baseReadFile true fs ⟨[], 0⟩).lines

/-- `SimpleSearch.search` with the reread step made explicit: when
reread is enabled the base loader runs first (with its mtime guard);
the scan then works on the possibly refreshed `_lines`.  Returns the
result together with the engine's loader state after the call. -/
def simpleSearchR (rereadOnQuery : Bool) (fs : FileState) (st : BaseState)
    (q : String) : Bool × BaseState :=
  let st' := if rereadOnQuery then baseReadFile true fs st else st
  (simpleSearch st'.lines q, st')

/-! ## `InMemorySearch` and `HashSearch` (`algorithms/inmemory.py`,
`algorithms/hash.py`) -/

/-- `InMemorySearch._read_file`: the set of rstripped decoded lines.  (A
Python `set` collapses duplicates; membership in the set coincides with
membership in this list.)  No case folding is ever applied. -/
def inMemoryLines (content : String) : List String :=
  fileLines content

/-- `InMemorySearch.search`: set membership of the query. -/
def inMemorySearch (content : String) (q : String) : Bool :=
  (inMemoryLines content).contains q

/-- `InMemorySearch.search` with the reread step made explicit:
`_read_file` here *overrides* the base loader and has no mtime guard,
so with reread enabled the current file is always read in full and the
previous `_lines` discarded. -/
def inMemorySearchR (rereadOnQuery : Bool) (content : String)
    (st : List String) (q : String) : Bool × List String :=
  let st' := if rereadOnQuery then inMemoryLines content else st
  (st'.contains q, st')

/-- `HashSearch._read_file` (identical reading discipline). -/
def hashLines (content : String) : List String :=
  fileLines content

/-- `HashSearch.search`: membership in the hash set. -/
def hashSearch (content : String) (q : String) : Bool :=
  (hashLines content).contains q

/-- `HashSearch.search` with the reread step made explicit: like
`InMemorySearch`, its own `_read_file` clears and refills the set from
the current file on every reread-enabled query, with no mtime guard. -/
def hashSearchR (rereadOnQuery : Bool) (content : String)
    (st : List String) (q : String) : Bool × List String :=
  let st' := if rereadOnQuery then hashLines content else st
  (st'.contains q, st')

/-! ## `RegexSearch` (`algorithms/regex.py`) -/

/-- `RegexSearch.search` body over the loaded lines: per line, lower-case
both sides when case-insensitive, then direct equality. -/
def regexSearch (caseSensitive : Bool) (lines : List String) (q : String) : Bool :=
  lines.any (fun line =>
    (if caseSensitive then line else strLower line) =
      (if caseSensitive then q else strLower q))

/-- `RegexSearch`'s lines after construction with reread disabled (base
loader, honouring the constructor's case flag). -/
def regexInit (caseSensitive : Bool) (fs : FileState) : List String :=
  (baseReadFile caseSensitive fs ⟨[], 0⟩).lines

/-- `RegexSearch.search` with the reread step made explicit: the base
loader (mtime-guarded) runs when reread is enabled.  (`search` triggers
it twice, once via `super().search` and once directly; the second run
sees the stamp just written and is a no-op, so one application models
both.) -/
def regexSearchR (caseSensitive rereadOnQuery : Bool) (fs : FileState)
    (st : BaseState) (q : String) : Bool × BaseState :=
  let st' := if rereadOnQuery then baseReadFile caseSensitive fs st else st
  (regexSearch caseSensitive st'.lines q, st')

/-! ## `BinarySearch` (`algorithms/binary.py`) -/

/-- State of a `BinarySearch` engine: `_lines`, `_sorted_lines` and
`_last_modified` (the latter only ever consulted through the base
loader's guard, which short-circuits on empty `_lines` before the first
read, exactly as the Python attribute access does). -/
structure BinaryState where
  lines : List String
  sortedLines : List String
  lastModified : Nat
  deriving Repr, DecidableEq

/-- Python `str < str`: lexicographic comparison of code points.  (Lean's
built-in `String` order is the same relation but is not
kernel-computable, so it is spelled out on the character lists.) -/
def charListLt : List Char → List Char → Bool
  | [], [] => false
  | [], _ :: _ => true
  | _ :: _, [] => false
  | a :: as, b :: bs =>
    if a.toNat < b.toNat then true
    else if b.toNat < a.toNat then false
    else charListLt as bs

/-- Python `a < b` on strings. -/
def strLt (a b : String) : Bool :=
  charListLt a.data b.data

/-- Python `a <= b` on strings. -/
def strLe (a b : String) : Bool :=
  !strLt b a

/-- One insertion of insertion sort (Python `sorted` is a stable sort;
on a list of strings any comparison sort yields the same list). -/
def insertStr (x : String) : List String → List String
  | [] => [x]
  | y :: ys => if strLe x y then x :: y :: ys else y :: insertStr x ys

/-- `sorted(lines)` for lexicographic string order. -/
def sortStrings (l : List String) : List String :=
  l.foldr insertStr []

/-- `BinarySearch._read_and_sort_file`: delegate to the base loader, then
sort. -/
def binReadAndSort (caseSensitive : Bool) (fs : FileState) (st : BinaryState) : BinaryState :=
  let b := baseReadFile caseSensitive fs ⟨st.lines, st.lastModified⟩
  { lines := b.lines, sortedLines := sortStrings b.lines, lastModified := b.lastModified }

/-- `BinarySearch.__init__`: read-and-sort at construction only when
reread is disabled. -/
def binInit (caseSensitive rereadOnQuery : Bool) (fs : FileState) : BinaryState :=
  if rereadOnQuery then ⟨[], [], 0⟩ else binReadAndSort caseSensitive fs ⟨[], [], 0⟩

/-- The `while left <= right` loop of `BinarySearch.search`, with
`lo = left` and `hi = right + 1`, so `mid = (left + right) // 2`
becomes `(lo + hi - 1) / 2`.  The first argument is the iteration
budget: each iteration shrinks `hi - lo` by at least one, so starting
the budget at `hi - lo` (as `binLoop` does) makes budget exhaustion
coincide exactly with `lo ≥ hi`, i.e. with Python's loop exit. -/
def binLoopF (xs : List String) (q : String) : Nat → Nat → Nat → Bool
  | 0, _, _ => false
  | fuel + 1, lo, hi =>
    if lo < hi then
      let mid := (lo + hi - 1) / 2
      let v := xs.getD mid ""
      if v = q then true
      else if strLt v q then binLoopF xs q fuel (mid + 1) hi
      else binLoopF xs q fuel lo mid
    else false

/-- The binary-search loop on `[lo, hi)`. -/
def binLoop (xs : List String) (q : String) (lo hi : Nat) : Bool :=
  binLoopF xs q (hi - lo) lo hi

/-- `BinarySearch.search`: lower-case the query when case-insensitive,
re-read-and-sort when reread is enabled, then binary-search
`_sorted_lines`.  Returns the result together with the engine state
after the call. -/
def binSearchQ (caseSensitive rereadOnQuery : Bool) (fs : FileState)
    (st : BinaryState) (q : String) : Bool × BinaryState :=
  let q' := if caseSensitive then q else strLower q
  let st' := if rereadOnQuery then binReadAndSort caseSensitive fs st else st
  (binLoop st'.sortedLines q' 0 st'.sortedLines.length, st')

/-! ## `BloomFilterSearch` (`algorithms/bloomfilter.py`) -/

/-- State of a `BloomFilterSearch` engine: the multiset of strings added
to the `pybloom_live` filter and the exact confirmation set `_lines`.
The probabilistic filter itself is abstracted by a false-positive oracle
`fp`: membership `x in self._bloom` is `x ∈ added ∨ fp x` — a Bloom
filter reports every added element as present (no false negatives) and
possibly some others (false positives), and `fp` ranges over all
behaviours the hash functions could produce. -/
structure BloomState where
  added : List String
  lines : List String
  deriving Repr, DecidableEq

/-- `x in self._bloom` under false-positive oracle `fp`. -/
def bloomMember (fp : String → Bool) (st : BloomState) (q : String) : Bool :=
  st.added.contains q || fp q

/-- `BloomFilterSearch._read_file`: fresh filter, cleared set, then every
rstripped decoded (and, when case-insensitive, lower-cased) line is added
to both. -/
def bloomRead (caseSensitive : Bool) (content : String) : BloomState :=
  let processed := (fileLines content).map (fun l => if caseSensitive then l else strLower l)
  { added := processed, lines := processed }

/-- `BloomFilterSearch.__init__`: empty filter and set; immediate read
when reread is disabled. -/
def bloomInit (caseSensitive rereadOnQuery : Bool) (content : String) : BloomState :=
  if rereadOnQuery then { added := [], lines := [] } else bloomRead caseSensitive content

/-- `BloomFilterSearch.search`: re-read when reread is enabled,
lower-case the query when case-insensitive, then
`query in self._bloom and query in self._lines` (Python `and`
short-circuits: a filter miss never consults `_lines`). -/
def bloomSearchQ (fp : String → Bool) (caseSensitive rereadOnQuery : Bool)
    (content : String) (st : BloomState) (q : String) : Bool × BloomState :=
  let st' := if rereadOnQuery then bloomRead caseSensitive content else st
  let q' := if caseSensitive then q else strLower q
  (bloomMember fp st' q' && st'.lines.contains q', st')

/-! ## `BoyerMoore` (`algorithms/boyermoore.py`) -/

/-- Python indexing `line[k]` with a possibly negative index (negative
indices address from the end). -/
def pyCharAt (l : List Char) (k : Int) : Char :=
  if k < 0 then l.getD (l.length - (-k).toNat) 'A' else l.getD k.toNat 'A'

/-- `_build_bad_char_table(pattern)` followed by `.get(c, len(pattern))`:
`table[pattern[i]] = len - 1 - i` for `i in range(len - 1)`, later
writes overwriting earlier ones, so the lookup finds the last
`i ≤ len - 2` with `pattern[i] = c`, defaulting to `len`. -/
def bmBadShift (p : List Char) (c : Char) : Nat :=
  match ((List.range (p.length - 1)).filter (fun i => p.getD i 'A' = c)).getLast? with
  | some i => p.length - 1 - i
  | none => p.length

/-- `_is_prefix(pattern, p)`: does `pattern[p:]` coincide with the prefix
of `pattern` of the same length? -/
def bmIsPrefixPos (p : List Char) (pos : Nat) : Bool :=
  (p.drop pos).isPrefixOf p

/-- The `while i >= 0 and pattern[i] == pattern[j]` loop of
`_find_suffix_length`: first argument is `i + 1` (zero meaning `i` has
passed below zero), second is `j`. -/
def bmSuffixGo (p : List Char) : Nat → Nat → Nat
  | 0, _ => 0
  | i + 1, j => if p.getD i 'A' = p.getD j 'A' then bmSuffixGo p i (j - 1) + 1 else 0

/-- `_find_suffix_length(pattern, p)`: common suffix length of
`pattern[0..p]` and `pattern`. -/
def bmFindSuffixLength (p : List Char) (pos : Nat) : Nat :=
  bmSuffixGo p (pos + 1) (p.length - 1)

/-- First loop of `_build_good_suffix_table`: `i` descends from `m - 1`
to `0` (first argument is `i + 1`), maintaining `last_prefix_position`
and writing `table[m - 1 - i] = last_prefix_position - i + m - 1`. -/
def bmGoodLoop1 (p : List Char) (m : Nat) : Nat → Nat → List Nat → List Nat
  | 0, _, t => t
  | i + 1, lpp, t =>
    let lpp' := if bmIsPrefixPos p (i + 1) then i + 1 else lpp
    bmGoodLoop1 p m i lpp' (t.set (m - 1 - i) (lpp' - i + m - 1))

/-- `_build_good_suffix_table(pattern)`: the descending prefix loop over
a zero table, then for `i in range(m - 1)` overwrite
`table[suffix_length] = m - 1 - i + suffix_length` whenever the suffix
length is positive. -/
def bmGoodSuffixTable (p : List Char) : List Nat :=
  let m := p.length
  let t1 := bmGoodLoop1 p m m m (List.replicate m 0)
  (List.range (m - 1)).foldl
    (fun t i =>
      let sl := bmFindSuffixLength p i
      if sl > 0 then t.set sl (m - 1 - i + sl) else t) t1

/-- The inner `while j >= 0 and line[k] == query[j]` loop of
`BoyerMoore.search`: first argument is `j + 1`; returns the final `j`
(as an `Int`, `-1` meaning a complete match), the final `k`, and the
number of successful character comparisons counted by the loop body. -/
def bmInnerGo (line q : List Char) : Nat → Int → Int × Int × Nat
  | 0, k => (-1, k, 0)
  | j + 1, k =>
    if pyCharAt line k = q.getD j 'A' then
      let r := bmInnerGo line q j (k - 1)
      (r.1, r.2.1, r.2.2 + 1)
    else (Int.ofNat j, k, 0)

/-- The outer `while i < len(line)` loop of `BoyerMoore.search` for one
line of the same length as the query.  `fuel` bounds the number of
iterations: every Boyer-Moore shift is at least one, so for an
equal-length line the loop runs at most twice and `line.length + 2` fuel
is always sufficient; exhaustion (impossible in those runs) is reported
as `none`.  Returns the verdict for this line and the updated comparison
count. -/
def bmOuterGo (line q : List Char) (gst : List Nat) : Nat → Int → Nat → Option Bool × Nat
  | 0, _, comp => (none, comp)
  | fuel + 1, i, comp =>
    if i < (line.length : Int) then
      let m := q.length
      let r := bmInnerGo line q m i
      let j := r.1
      let k := r.2.1
      let comp := comp + r.2.2
      if j = -1 then (some true, comp)
      else
        let comp := comp + 1
        let badShift := bmBadShift q (pyCharAt line k)
        let goodShift := gst.getD (m - 1 - j.toNat) 0
        bmOuterGo line q gst fuel (i + (max badShift goodShift : Nat)) comp
    else (some false, comp)

/-- The `for line_index, line in enumerate(self._lines)` loop of
`BoyerMoore.search`: skip lines whose length differs from the query's,
otherwise run the Boyer-Moore scan starting at `i = len(query) - 1`. -/
def bmLinesGo (q : List Char) (gst : List Nat) : List (List Char) → Nat → Option Bool × Nat
  | [], comp => (some false, comp)
  | line :: rest, comp =>
    if line.length ≠ q.length then bmLinesGo q gst rest comp
    else
      match bmOuterGo line q gst (line.length + 2) ((q.length : Int) - 1) comp with
      | (some true, c) => (some true, c)
      | (some false, c) => bmLinesGo q gst rest c
      | (none, c) => (none, c)

/-- State of a `BoyerMoore` engine: `_cache` (the raw file text, `""`
standing for Python's falsy `None`/empty cache) and `_lines`
(`_cache.split('\n')`). -/
structure BMState where
  cache : String
  lines : List String
  deriving Repr, DecidableEq

/-- `BoyerMoore._read_file`: read the whole file and split on `'\n'`. -/
def bmRead (content : String) : BMState :=
  ⟨content, bmSplitNL content⟩

/-- `BoyerMoore.__init__`: read immediately when reread is disabled. -/
def bmInit (rereadOnQuery : Bool) (content : String) : BMState :=
  if rereadOnQuery then ⟨"", []⟩ else bmRead content

/-- `BoyerMoore.search`: the base-class reread, the `if not self._cache`
fallback read, comparison counter reset to zero, table construction, and
the line loop.  Returns `((verdict, comparisons), state after)`. -/
def bmSearchQ (rereadOnQuery : Bool) (content : String) (st : BMState)
    (q : String) : (Option Bool × Nat) × BMState :=
  let st := if rereadOnQuery then bmRead content else st
  let st := if st.cache = "" then bmRead content else st
  let gst := bmGoodSuffixTable q.data
  (bmLinesGo q.data gst (st.lines.map String.data) 0, st)

/-! ## `KMP` (`algorithms/kmp.py`) -/

/-- The `while i < length` loop of `KMP._compute_lps`, building the
failure function.  `fuel` bounds the iterations; every iteration either
advances `i` or strictly decreases `len_prev_lps`, so
`2 * length + 2` fuel always suffices, and exhaustion is `none`. -/
def kmpLpsGo (p : List Char) : Nat → Nat → Nat → List Nat → Option (List Nat)
  | 0, _, _, _ => none
  | fuel + 1, i, lenPrev, lps =>
    if i < p.length then
      if p.getD i 'A' = p.getD lenPrev 'A' then
        kmpLpsGo p fuel (i + 1) (lenPrev + 1) (lps.set i (lenPrev + 1))
      else if lenPrev > 0 then
        kmpLpsGo p fuel i (lps.getD (lenPrev - 1) 0) lps
      else
        kmpLpsGo p fuel (i + 1) 0 (lps.set i 0)
    else some lps

/-- `KMP._compute_lps(pattern)`: the failure function array. -/
def kmpComputeLps (p : List Char) : Option (List Nat) :=
  kmpLpsGo p (2 * p.length + 2) 1 0 (List.replicate p.length 0)

/-- The `while i < n` loop of `KMP._kmp_search`, carrying the comparison
counter.  `fuel` bounds the iterations (each one advances `i` or
strictly decreases `j`, so `2 * n + m + 2` always suffices). -/
def kmpGo (text pat : List Char) (lps : List Nat) : Nat → Nat → Nat → Nat → Option Bool × Nat
  | 0, _, _, comp => (none, comp)
  | fuel + 1, i, j, comp =>
    if i < text.length then
      let comp := comp + 1
      let ij := if pat.getD j 'A' = text.getD i 'A' then (i + 1, j + 1) else (i, j)
      let i := ij.1
      let j := ij.2
      if j = pat.length then (some true, comp)
      else if i < text.length ∧ pat.getD j 'A' ≠ text.getD i 'A' then
        if j > 0 then kmpGo text pat lps fuel i (lps.getD (j - 1) 0) comp
        else kmpGo text pat lps fuel (i + 1) j comp
      else kmpGo text pat lps fuel i j comp
    else (some false, comp)

/-- `KMP._kmp_search(text, pattern)` with comparison counting: an
immediate `False` when the lengths differ (before the failure function
is even computed), otherwise the automaton scan. -/
def kmpSearchLine (text pat : List Char) (comp : Nat) : Option Bool × Nat :=
  if text.length ≠ pat.length then (some false, comp)
  else
    match kmpComputeLps pat with
    | none => (none, comp)
    | some lps => kmpGo text pat lps (2 * text.length + pat.length + 2) 0 0 comp

/-- The `for line in self._lines` loop of `KMP.search`: lower-case line
and query when case-insensitive, then `_kmp_search`. -/
def kmpLinesGo (caseSensitive : Bool) (q : List Char) :
    List (List Char) → Nat → Option Bool × Nat
  | [], comp => (some false, comp)
  | line :: rest, comp =>
    let line' := if caseSensitive then line else line.map lowerChar
    let q' := if caseSensitive then q else q.map lowerChar
    match kmpSearchLine line' q' comp with
    | (some true, c) => (some true, c)
    | (some false, c) => kmpLinesGo caseSensitive q rest c
    | (none, c) => (none, c)

/-- `KMP.search` over the loaded lines, with the comparison counter
freshly reset to zero as the method does. -/
def kmpSearchQ (caseSensitive : Bool) (lines : List String) (q : String) : Option Bool × Nat :=
  kmpLinesGo caseSensitive q.data (lines.map String.data) 0

/-- `KMP`'s lines after construction with reread disabled (base loader,
honouring the constructor's case flag, which is set before the read). -/
def kmpInit (caseSensitive : Bool) (fs : FileState) : List String :=
  (baseReadFile caseSensitive fs ⟨[], 0⟩).lines

/-- `KMP.search` with the reread step made explicit (base loader with
its mtime guard; the duplicate trigger via `super().search` is a
no-op, as for `RegexSearch`). -/
def kmpSearchR (caseSensitive rereadOnQuery : Bool) (fs : FileState)
    (st : BaseState) (q : String) : (Option Bool × Nat) × BaseState :=
  let st' := if rereadOnQuery then baseReadFile caseSensitive fs st else st
  (kmpSearchQ caseSensitive st'.lines q, st')

/-! ## `RabinKarp` (`algorithms/rabinkarp.py`) -/

/-- `RabinKarp._calculate_hash(string, length)`: polynomial rolling hash
of the first `length` characters. -/
def rkHash (base prime : Nat) (s : List Char) (len : Nat) : Nat :=
  (s.take len).foldl (fun h c => (h * base + c.toNat) % prime) 0

/-- The `for i in range(len(pattern))` loop of
`RabinKarp._check_strings(text, pattern, 0)`: per-character comparison,
counting every executed comparison including the failing one.  The first
numeric argument counts the remaining indices (`len(pattern) - i`). -/
def rkCheckGo (text pat : List Char) : Nat → Nat → Nat → Bool × Nat
  | 0, _, comp => (true, comp)
  | rem + 1, i, comp =>
    if text.getD i 'A' ≠ pat.getD i 'A' then (false, comp + 1)
    else rkCheckGo text pat rem (i + 1) (comp + 1)

/-- The `for line in self._lines` loop of `RabinKarp.search`: skip lines
of differing length, lower-case when case-insensitive, compare rolling
hashes and confirm a hash hit character by character. -/
def rkLinesGo (caseSensitive : Bool) (base prime : Nat) (q : List Char) :
    List (List Char) → Nat → Bool × Nat
  | [], comp => (false, comp)
  | line :: rest, comp =>
    if line.length ≠ q.length then rkLinesGo caseSensitive base prime q rest comp
    else
      let line' := if caseSensitive then line else line.map lowerChar
      let q' := if caseSensitive then q else q.map lowerChar
      let lineHash := rkHash base prime line' q'.length
      let queryHash := rkHash base prime q' q'.length
      if lineHash = queryHash then
        match rkCheckGo line' q' q'.length 0 comp with
        | (true, c) => (true, c)
        | (false, c) => rkLinesGo caseSensitive base prime q rest c
      else rkLinesGo caseSensitive base prime q rest comp

/-- `RabinKarp.search` over the loaded lines (default
`base = 256`, `prime = 101`), comparison counter reset to zero. -/
def rkSearchQ (caseSensitive : Bool) (lines : List String) (q : String) : Bool × Nat :=
  rkLinesGo caseSensitive 256 101 q.data (lines.map String.data) 0

/-- `RabinKarp`'s lines after construction with reread disabled. -/
def rkInit (caseSensitive : Bool) (fs : FileState) : List String :=
  (baseReadFile caseSensitive fs ⟨[], 0⟩).lines

/-- `RabinKarp.search` with the reread step made explicit (base loader
with its mtime guard; the duplicate trigger via `super().search` is a
no-op, as for `RegexSearch`). -/
def rkSearchR (caseSensitive rereadOnQuery : Bool) (fs : FileState)
    (st : BaseState) (q : String) : (Bool × Nat) × BaseState :=
  let st' := if rereadOnQuery then baseReadFile caseSensitive fs st else st
  (rkSearchQ caseSensitive st'.lines q, st')

/-! ## The protocol handler (`src/server/server.py`) -/

/-- `MAX_PAYLOAD_SIZE`. -/
def maxPayloadSize : Nat := 1024

/-- Outcome of `SearchHandler._receive_request`: the peer closed the
connection (`recv` returned `b''`), the payload cap was hit without a
terminator (`ValueError`), the pre-newline part of a chunk failed the
UTF-8 test (`UnicodeDecodeError`), or a complete request payload. -/
inductive RecvRes where
  | closed : RecvRes
  | tooLarge : RecvRes
  | badEnc : RecvRes
  | ok : List Nat → RecvRes
  deriving Repr, DecidableEq

/-- A connection's unread input, as the sequence of byte groups the
client has sent (each `recv` drains from the head group; an exhausted
list means the peer has closed its end).  This size measure — total
bytes plus number of groups — strictly decreases at every `recv` that
returns data. -/
def streamSize (pending : List (List Nat)) : Nat :=
  (pending.map List.length).sum + pending.length

/-- The `while True` receive loop of `SearchHandler._receive_request`
(server.py lines 139-160): check the remaining budget against
`MAX_PAYLOAD_SIZE`, `recv(min(remaining, 4096))`, UTF-8-check the part
of the chunk before its first newline, accumulate, and stop once a chunk
contains a newline, returning `data.rstrip(b"\x00")` and the unread rest
of the stream.  The first argument is an iteration budget: every
iteration that recurses removes at least one byte from the stream, so
the `streamSize pending + 1` budget supplied by `receiveRequest` can
never run out (the zero case is unreachable from it). -/
def receiveAuxF : Nat → List (List Nat) → List Nat → RecvRes × List (List Nat)
  | 0, pending, _ => (.closed, pending)
  | fuel + 1, pending, data =>
    if maxPayloadSize ≤ data.length then (.tooLarge, pending)
    else
      match pending with
      | [] => (.closed, [])
      | g :: rest =>
        let want := min (maxPayloadSize - data.length) 4096
        let chunk := g.take want
        if chunk = [] then (.closed, g :: rest)
        else
          let g' := g.drop want
          let pend' := if g' = [] then rest else g' :: rest
          if chunk.contains 10 then
            if utf8ValidB (chunk.takeWhile (fun b => b ≠ 10)) then
              (.ok (rstripNul (data ++ chunk)), pend')
            else (.badEnc, pend')
          else receiveAuxF fuel pend' (data ++ chunk)

/-- `SearchHandler._receive_request`: run the receive loop on the unread
stream with an always-sufficient iteration budget. -/
def receiveRequest (pending : List (List Nat)) : RecvRes × List (List Nat) :=
  receiveAuxF (streamSize pending + 1) pending []

/-- The per-connection `while True` loop of `SearchHandler.handle`
(server.py lines 80-123), parameterised by the resolved engine's
`search` (a function on the decoded, folded query's code points) and the
configuration's case-sensitivity flag.  Produces the exact response
lines written to the socket, in order, together with the list of queries
actually passed to the engine.  A `tooLarge` or encoding failure sends
its error line and ends the session; an empty (post-`strip()`) query
sends `ERROR: Empty request` and continues the loop.  The budget
argument plays the same role as in `receiveAuxF`: each round of the loop
consumes at least one byte of the stream, so `handleConn`'s
`streamSize pending + 1` budget cannot run out. -/
def handleLoopF (search : List Nat → Bool) (caseSensitive : Bool) :
    Nat → List (List Nat) → List String × List (List Nat)
  | 0, _ => ([], [])
  | fuel + 1, pending =>
    match receiveRequest pending with
    | (.closed, _) => ([], [])
    | (.tooLarge, _) => (["ERROR: Payload too large\x0a"], [])
    | (.badEnc, _) => (["ERROR: Invalid character encoding\x0a"], [])
    | (.ok data, pend') =>
      match utf8Decode data with
      | none => (["ERROR: Invalid character encoding\x0a"], [])
      | some cps =>
        let q := pyStrip cps
        if q = [] then
          let r := handleLoopF search caseSensitive fuel pend'
          ("ERROR: Empty request\x0a" :: r.1, r.2)
        else
          let q' := if caseSensitive then q else q.map lowerCp
          let r := handleLoopF search caseSensitive fuel pend'
          ((if search q' then "STRING EXISTS\x0a" else "STRING NOT FOUND\x0a") :: r.1,
           q' :: r.2)

/-- One full connection session: responses written and queries passed to
the engine, for a given unread client stream. -/
def handleConn (search : List Nat → Bool) (caseSensitive : Bool)
    (pending : List (List Nat)) : List String × List (List Nat) :=
  handleLoopF search caseSensitive (streamSize pending + 1) pending

/-! ## The server path for case folding (`SearchHandler.setup` +
`SearchHandler._process_valid_query`) -/

/-- What the server answers for a query when configured with the
`inmemory` engine: `setup` (server.py lines 58-78) constructs the engine
as `algorithm_class(self.config.linux_path, self.config.reread_on_query)`
— the configuration's case-sensitivity flag is *not* passed, so
`InMemorySearch` indexes the corpus in original case — and
`_process_valid_query` (lines 203-245) lower-cases the query when the
configuration is case-insensitive before calling `search`. -/
def serverAnswerInMemory (caseSensitive : Bool) (corpus : String) (query : String) : Bool :=
  let q := if caseSensitive then query else strLower query
  inMemorySearch corpus q

/-- The response line `_process_valid_query` writes for that answer. -/
def serverResponseInMemory (caseSensitive : Bool) (corpus : String) (query : String) : String :=
  if serverAnswerInMemory caseSensitive corpus query then "STRING EXISTS\x0a"
  else "STRING NOT FOUND\x0a"

/-! ## The engine registry under concurrent first access
(`SearchHandler.algorithm_instances`, `SearchHandler.setup`) -/

/-- The shared state of the registry for one `(algorithm, corpus path)`
key: the cached instance (identified by a construction serial number)
and the number of constructions performed so far. -/
structure RegState where
  registry : Option Nat
  nextId : Nat
  deriving Repr, DecidableEq

/-- One worker thread running `setup` for the key, broken at the
interleaving points of the unsynchronised check-then-act:
`pc = 0`: about to evaluate `algo_key not in self.algorithm_instances`;
`pc = 1`: checked (`sawAbsent` records the observation), about to
construct-and-insert if the key was absent;
`pc = 2`: about to execute `self.search_algo = self.algorithm_instances[algo_key]`;
`pc = 3`: done, `engine` holds the adopted instance.
Construction and insertion are taken as one atomic step — a conservative
choice that only under-approximates the interleavings Python allows
(engine construction performs file I/O and releases the interpreter
lock). -/
structure WorkerState where
  pc : Nat
  sawAbsent : Bool
  engine : Option Nat
  deriving Repr, DecidableEq

/-- One atomic step of a worker's `setup`. -/
def workerStep (g : RegState) (w : WorkerState) : RegState × WorkerState :=
  match w.pc with
  | 0 => (g, { w with pc := 1, sawAbsent := g.registry.isNone })
  | 1 =>
    if w.sawAbsent then
      ({ registry := some g.nextId, nextId := g.nextId + 1 }, { w with pc := 2 })
    else (g, { w with pc := 2 })
  | 2 => (g, { w with pc := 3, engine := g.registry })
  | _ => (g, w)

/-- Run a schedule over two workers: `false` steps worker one, `true`
steps worker two. -/
def runSched : List Bool → RegState × WorkerState × WorkerState → RegState × WorkerState × WorkerState
  | [], s => s
  | b :: rest, (g, w1, w2) =>
    if b then
      let gw := workerStep g w2
      runSched rest (gw.1, w1, gw.2)
    else
      let gw := workerStep g w1
      runSched rest (gw.1, gw.2, w2)

/-- Initial registry state: no instance cached, nothing constructed. -/
def regInit : RegState := ⟨none, 0⟩

/-- Initial worker state. -/
def wInit : WorkerState := ⟨0, false, none⟩

/-- A worker's contribution to the construction count: one once it has
passed the construct-or-skip step having observed an absent key. -/
def wContrib (w : WorkerState) : Nat :=
  if 2 ≤ w.pc ∧ w.sawAbsent then 1 else 0

/-! ## Sanity checks of the embedding on concrete inputs -/

example : fileLines "apple\x0abanana\x0a" = ["apple", "banana"] := by decide
example : fileLines "" = [] := by decide
example : bmSplitNL "" = [""] := by decide
example : bmSplitNL "a\x0ab\x0a" = ["a", "b", ""] := by decide
example : pyStrip ([32, 97, 112, 32]) = [97, 112] := by decide

example : (bmSearchQ false "a\x0ab\x0a" (bmInit false "a\x0ab\x0a") "a").1.1 = some true := by decide
example : (bmSearchQ false "a\x0ab\x0a" (bmInit false "a\x0ab\x0a") "b").1.1 = some true := by decide
example : (bmSearchQ false "a\x0ab\x0a" (bmInit false "a\x0ab\x0a") "c").1.1 = some false := by decide
example : (bmSearchQ false "abc\x0axbc\x0a" (bmInit false "abc\x0axbc\x0a") "abc").1.1 = some true := by decide
example : (bmSearchQ false "xbc\x0a" (bmInit false "xbc\x0a") "abc").1.1 = some false := by decide
example : (bmSearchQ false "" (bmInit false "") "").1.1 = some true := by decide
example : (bmSearchQ false "" (bmInit false "") "x").1.1 = some false := by decide

example : (bmSearchQ false "aabaa\x0a" (bmInit false "aabaa\x0a") "aabaa").1.1 = some true := by decide
example : (bmSearchQ false "abaca\x0a" (bmInit false "abaca\x0a") "ababa").1.1 = some false := by decide

example : kmpSearchQ true ["abc", "abd"] "abd" = (some true, 6) := by decide
example : (kmpSearchQ true ["abc"] "abd").1 = some false := by decide
example : (kmpSearchQ true ["aabaa"] "aabaa").1 = some true := by decide
example : (kmpSearchQ true ["ababa"] "abbba").1 = some false := by decide
example : (kmpSearchQ true [] "x").1 = some false := by decide

example : (rkSearchQ true ["apple", "grape"] "grape").1 = true := by decide
example : (rkSearchQ true ["apple", "grape"] "grapf").1 = false := by decide
example : (rkSearchQ true [] "x").1 = false := by decide

example :
    (binSearchQ true false ⟨"b\x0aa\x0ac\x0a", 1⟩
      (binInit true false ⟨"b\x0aa\x0ac\x0a", 1⟩) "b").1 = true := by decide
example :
    (binSearchQ true false ⟨"b\x0aa\x0ac\x0a", 1⟩
      (binInit true false ⟨"b\x0aa\x0ac\x0a", 1⟩) "d").1 = false := by decide

/-! ## UTF-8 decoding facts -/

theorem utf8DecodeF_ascii (fuel : Nat) (l : List Nat) (hf : l.length ≤ fuel)
    (h : ∀ b ∈ l, b ≤ 0x7F) : utf8DecodeF fuel l = some l := by
  induction fuel generalizing l with
  | zero =>
    cases l with
    | nil => rfl
    | cons b bs => simp at hf
  | succ fuel ih =>
    cases l with
    | nil => rfl
    | cons b bs =>
      have hb : b ≤ 0x7F := h b (List.mem_cons_self b bs)
      have hbs : utf8DecodeF fuel bs = some bs := by
        refine ih bs ?_ (fun x hx => h x (List.mem_cons_of_mem _ hx))
        have := hf
        simp only [List.length_cons] at this
        omega
      simp [utf8DecodeF, utf8Step, hb, hbs]

/-- ASCII byte lists decode to themselves. -/
theorem utf8Decode_ascii (l : List Nat) (h : ∀ b ∈ l, b ≤ 0x7F) :
    utf8Decode l = some l :=
  utf8DecodeF_ascii l.length l le_rfl h

/-! ## Registry invariants -/

theorem workerStep_nextId (g : RegState) (w : WorkerState) :
    (workerStep g w).1.nextId + wContrib w = g.nextId + wContrib (workerStep g w).2 := by
  rcases w with ⟨pc, sa, e⟩
  rcases pc with _ | _ | _ | n
  · simp [workerStep, wContrib]
  · cases sa <;> simp [workerStep, wContrib]
  · simp [workerStep, wContrib]
  · simp [workerStep, wContrib]

theorem runSched_nextId (sched : List Bool) (g : RegState) (w1 w2 : WorkerState)
    (h : g.nextId = wContrib w1 + wContrib w2) :
    (runSched sched (g, w1, w2)).1.nextId =
      wContrib (runSched sched (g, w1, w2)).2.1 +
      wContrib (runSched sched (g, w1, w2)).2.2 := by
  induction sched generalizing g w1 w2 with
  | nil => simpa [runSched] using h
  | cons b rest ih =>
    cases b
    · have step := workerStep_nextId g w1
      simp only [runSched]
      exact ih _ _ _ (by omega)
    · have step := workerStep_nextId g w2
      simp only [runSched]
      exact ih _ _ _ (by omega)

/-- A worker contributes at most one construction. -/
theorem wContrib_le_one (w : WorkerState) : wContrib w ≤ 1 := by
  unfold wContrib
  split <;> omega

/-! ## Helper lemmas about the Python string primitives -/

theorem takeWhile_append_of_all (p : Nat → Bool) (s : List Nat) (x : Nat)
    (h : ∀ y ∈ s, p y = true) (hx : p x = false) :
    (s ++ [x]).takeWhile p = s := by
  induction s with
  | nil => simp [List.takeWhile_cons, hx]
  | cons a as ih =>
    have ha := h a (List.mem_cons_self a as)
    simp [List.takeWhile_cons, ha,
      ih (fun y hy => h y (List.mem_cons_of_mem _ hy))]

theorem takeWhile_ne10_append (s : List Nat) (h : 10 ∉ s) :
    (s ++ [10]).takeWhile (fun b => b ≠ 10) = s := by
  refine takeWhile_append_of_all _ s 10 (fun y hy => ?_) (by simp)
  simp
  exact fun he => h (he ▸ hy)

theorem stripTrail_append_neg (p : Nat → Bool) (l : List Nat) (x : Nat)
    (hx : p x = false) : stripTrail p (l ++ [x]) = l ++ [x] := by
  simp [stripTrail, List.dropWhile, hx]

theorem stripTrail_append_pos (p : Nat → Bool) (l : List Nat) (x : Nat)
    (hx : p x = true) : stripTrail p (l ++ [x]) = stripTrail p l := by
  simp [stripTrail, List.dropWhile, hx]

theorem rstripNul_append10 (s : List Nat) : rstripNul (s ++ [10]) = s ++ [10] :=
  stripTrail_append_neg _ s 10 (by decide)

theorem pyStrip_append10 (s : List Nat) : pyStrip (s ++ [10]) = pyStrip s := by
  unfold pyStrip
  rw [stripTrail_append_pos _ s 10 (by decide)]

theorem head_dropWhile_false {p : Nat → Bool} {l : List Nat} {x : Nat}
    (h : (l.dropWhile p).head? = some x) : p x = false := by
  induction l with
  | nil => simp [List.dropWhile] at h
  | cons a as ih =>
    by_cases hp : p a = true
    · rw [List.dropWhile_cons_of_pos hp] at h
      exact ih h
    · rw [List.dropWhile_cons_of_neg hp] at h
      simp at h
      rw [← h]
      simpa using hp

/-- `SimpleSearch.search` answers `false` on every input: the empty
query is rejected up front, and for any other query each comparison is
the always-false Python `str == bytes`. -/
theorem simpleSearch_always_false (lines : List String) (q : String) :
    simpleSearch lines q = false := by
  unfold simpleSearch pyStrEqBytes
  split
  · rfl
  · simp

/-! ## Claim C1 -/

/-- C1 (simple engine): `SimpleSearch.search` can never report a match.
Its `_lines` hold decoded `str` values (from the base loader), but the
loop compares them with the `bytes` value `query_bytes.rstrip()` — in
Python 3 a `str` never equals a `bytes`, so the comparison is `False`
for every line (and `self._lines[:-1]` additionally skips the last
line).  Hence, against the claim that every engine in the catalog finds
each corpus line, the `simple` engine returns `false` even for a line
that is present: for the corpus `"apple\n"`/`"banana\n"`, `"apple"` is a
corpus line, yet the engine constructed with reread disabled answers
`false` (it answers `false` on every input whatsoever). -/
theorem c1_simple_search_never_finds :
    (∀ (lines : List String) (q : String), simpleSearch lines q = false) ∧
    (fileLines "apple\x0abanana\x0a").contains "apple" = true ∧
    simpleSearch (simpleInit ⟨"apple\x0abanana\x0a", 1⟩) "apple" = false :=
  ⟨simpleSearch_always_false, by decide, by decide⟩

/-! ## Claim C3 -/

/-- C3 (server path, case-insensitive): `SearchHandler.setup` constructs
every engine as `algorithm_class(linux_path, reread_on_query)` — the
configuration's `case_sensitive` flag is never forwarded, so the corpus
is indexed in its original case — while `_process_valid_query`
lower-cases the query when the configuration is case-insensitive.  For a
corpus containing the line `"Apple"` under a case-insensitive
configuration with the `inmemory` engine, every case variant of the line
(including the line itself) is answered `STRING NOT FOUND`, contradicting
the claim that case variants of corpus lines are found. -/
theorem c3_server_case_insensitive_miss :
    (fileLines "Apple\x0a").contains "Apple" = true ∧
    serverAnswerInMemory false "Apple\x0a" "APPLE" = false ∧
    serverAnswerInMemory false "Apple\x0a" "Apple" = false ∧
    serverAnswerInMemory false "Apple\x0a" "apple" = false ∧
    serverResponseInMemory false "Apple\x0a" "APPLE" = "STRING NOT FOUND\x0a" := by
  decide

/-! ## Claim C4 -/

/-- C4, counterexample: over an empty corpus file the `boyermoore`
engine answers `true` for the empty query, because
`''.split('\n') == ['']` leaves one empty line whose length equals the
empty pattern's, and the Boyer-Moore scan accepts immediately
(`j == -1`).  The claim asserts `search(q) = false` for *every* query
over an empty corpus. -/
theorem c4_counterexample_bm_empty_query :
    (bmSearchQ false "" (bmInit false "") "").1.1 = some true := by
  decide

/-! ## Claim C9 -/

/-- C9, counterexample: for the received line `b" ap\n"` the handler
passes `"ap"` — not `" ap"` — to the engine: `handle` applies Python
`str.strip()` to the decoded payload, which removes the *leading* space
as well, contradicting the claim that only trailing `\r`, NUL and the
`\n` terminator are stripped and every other byte (including leading and
trailing spaces and tabs) reaches the engine unchanged. -/
theorem c9_counterexample_leading_space_stripped :
    (handleConn (fun _ => true) true [[32, 97, 112, 10]]).2 = [[97, 112]] ∧
    [(32 : Nat), 97, 112] ≠ [97, 112] := by
  decide

/-! ## Claim C2 -/

/-- C2, counterexample: with reread enabled, `BinarySearch.search` does
*not* perform a full re-read on every call.  The base loader's guard
(`if self._lines and current_mtime <= self._last_modified: return`)
reuses the previous load whenever the file's mtime has not increased.
Scenario: the engine is built with reread enabled over `"a\n"` at mtime
5; the first search loads and finds `"a"`; the file then changes to
`"a\nb\n"` while keeping mtime 5 (e.g. a same-timestamp rewrite); the
second search — which by the claim must re-read and hence find the new
corpus line `"b"` (a fresh engine does, as the last conjunct shows) —
answers `false`, matching against the stale index. -/
theorem c2_counterexample_mtime_guard_skips_reload :
    (binSearchQ true true ⟨"a\x0a", 5⟩ (binInit true true ⟨"a\x0a", 5⟩) "a").1 = true ∧
    (fileLines "a\x0ab\x0a").contains "b" = true ∧
    (binSearchQ true true ⟨"a\x0ab\x0a", 5⟩
      (binSearchQ true true ⟨"a\x0a", 5⟩ (binInit true true ⟨"a\x0a", 5⟩) "a").2 "b").1
      = false ∧
    (binSearchQ true true ⟨"a\x0ab\x0a", 5⟩ (binInit true true ⟨"a\x0ab\x0a", 5⟩) "b").1
      = true := by
  decide

/-- C2 as amended: the reload behaviour is per engine group.
With reread enabled:
(A) engines whose `_read_file` overrides the base loader — `inmemory`,
`hash`, `bloom`, `boyermoore` — fully re-read and re-index the current
corpus file on every search, with no reuse of a previous load (result
and resulting state are independent of any prior state);
(B) the base loader used by `simple`, `regex`, `kmp`, `rabinkarp` and
`binary` is mtime-gated: it returns the cached lines untouched when
lines are cached and the file's mtime has not increased, and fully
re-reads (recording the new stamp) when the mtime is newer;
(C) accordingly each of those five engines, when the guard fires,
matches against the previously loaded lines with the loader state
unchanged (binary re-sorting them from the cache, not from disk);
(D) appending a line with a bumped mtime is seen by the next
reread-enabled query.
With reread disabled:
(E) `simple`, `regex`, `kmp`, `rabinkarp`, `binary`, `inmemory`, `hash`
and `bloom` never touch the file — the search result and final state
are independent of the file's current contents, so an appended line is
invisible until reconstruction;
(F) `boyermoore` alone re-reads the current file whenever its cached
text is empty (`if not self._cache`), e.g. when constructed over an
initially empty corpus, so an appended line *is* seen then; with a
nonempty cache it matches against the cache. -/
theorem c2_amended_reload_semantics :
    (∀ (content : String) (st st' : List String) (q : String),
        inMemorySearchR true content st q = inMemorySearchR true content st' q ∧
        inMemorySearchR true content st q =
          ((inMemoryLines content).contains q, inMemoryLines content)) ∧
    (∀ (content : String) (st st' : List String) (q : String),
        hashSearchR true content st q = hashSearchR true content st' q ∧
        hashSearchR true content st q =
          ((hashLines content).contains q, hashLines content)) ∧
    (∀ (fp : String → Bool) (cs : Bool) (content : String) (st st' : BloomState)
        (q : String),
        bloomSearchQ fp cs true content st q = bloomSearchQ fp cs true content st' q ∧
        (bloomSearchQ fp cs true content st q).2 = bloomRead cs content) ∧
    (∀ (content : String) (st st' : BMState) (q : String),
        bmSearchQ true content st q = bmSearchQ true content st' q) ∧
    (∀ (cs : Bool) (fs : FileState) (st : BaseState),
        (st.lines ≠ [] → fs.mtime ≤ st.lastModified → baseReadFile cs fs st = st) ∧
        (st.lastModified < fs.mtime →
          baseReadFile cs fs st =
            ⟨(fileLines fs.content).map (fun l => if cs then l else strLower l),
             fs.mtime⟩)) ∧
    (∀ (fs : FileState) (st : BaseState) (q : String),
        st.lines ≠ [] → fs.mtime ≤ st.lastModified →
        simpleSearchR true fs st q = (simpleSearch st.lines q, st)) ∧
    (∀ (cs : Bool) (fs : FileState) (st : BaseState) (q : String),
        st.lines ≠ [] → fs.mtime ≤ st.lastModified →
        regexSearchR cs true fs st q = (regexSearch cs st.lines q, st)) ∧
    (∀ (cs : Bool) (fs : FileState) (st : BaseState) (q : String),
        st.lines ≠ [] → fs.mtime ≤ st.lastModified →
        kmpSearchR cs true fs st q = (kmpSearchQ cs st.lines q, st)) ∧
    (∀ (cs : Bool) (fs : FileState) (st : BaseState) (q : String),
        st.lines ≠ [] → fs.mtime ≤ st.lastModified →
        rkSearchR cs true fs st q = (rkSearchQ cs st.lines q, st)) ∧
    (∀ (cs : Bool) (fs : FileState) (st : BinaryState) (q : String),
        st.lines ≠ [] → fs.mtime ≤ st.lastModified →
        binSearchQ cs true fs st q =
          (binLoop (sortStrings st.lines) (if cs then q else strLower q) 0
            (sortStrings st.lines).length,
           ⟨st.lines, sortStrings st.lines, st.lastModified⟩)) ∧
    (∀ t0 t1 : Nat, t0 < t1 →
        (binSearchQ true true ⟨"a\x0ab\x0a", t1⟩
          (binSearchQ true true ⟨"a\x0a", t0⟩ (binInit true true ⟨"a\x0a", t0⟩) "a").2
          "b").1 = true) ∧
    (∀ (fs fs' : FileState) (st : BaseState) (q : String),
        simpleSearchR false fs st q = simpleSearchR false fs' st q) ∧
    (∀ (cs : Bool) (fs fs' : FileState) (st : BaseState) (q : String),
        regexSearchR cs false fs st q = regexSearchR cs false fs' st q) ∧
    (∀ (cs : Bool) (fs fs' : FileState) (st : BaseState) (q : String),
        kmpSearchR cs false fs st q = kmpSearchR cs false fs' st q) ∧
    (∀ (cs : Bool) (fs fs' : FileState) (st : BaseState) (q : String),
        rkSearchR cs false fs st q = rkSearchR cs false fs' st q) ∧
    (∀ (cs : Bool) (fs fs' : FileState) (st : BinaryState) (q : String),
        binSearchQ cs false fs st q = binSearchQ cs false fs' st q ∧
        (binSearchQ cs false fs st q).2 = st) ∧
    (∀ (content content' : String) (st : List String) (q : String),
        inMemorySearchR false content st q = inMemorySearchR false content' st q) ∧
    (∀ (content content' : String) (st : List String) (q : String),
        hashSearchR false content st q = hashSearchR false content' st q) ∧
    (∀ (fp : String → Bool) (cs : Bool) (content content' : String)
        (st : BloomState) (q : String),
        bloomSearchQ fp cs false content st q = bloomSearchQ fp cs false content' st q) ∧
    (∀ (content : String) (st : BMState) (q : String), st.cache ≠ "" →
        bmSearchQ false content st q =
          (bmLinesGo q.data (bmGoodSuffixTable q.data) (st.lines.map String.data) 0,
           st)) ∧
    (∀ (content : String) (st : BMState) (q : String), st.cache = "" →
        (bmSearchQ false content st q).2 = bmRead content) ∧
    (bmSearchQ false "kiwi\x0a" (bmInit false "") "kiwi").1.1 = some true := by
  refine ⟨fun content st st' q => ⟨rfl, rfl⟩,
    fun content st st' q => ⟨rfl, rfl⟩,
    fun fp cs content st st' q => ⟨rfl, rfl⟩,
    fun content st st' q => rfl,
    fun cs fs st => ⟨fun h1 h2 => by simp [baseReadFile, h1, h2],
      fun h => by
        have hle : ¬ (fs.mtime ≤ st.lastModified) := by omega
        simp [baseReadFile, hle]⟩,
    fun fs st q h1 h2 => by simp [simpleSearchR, baseReadFile, h1, h2],
    fun cs fs st q h1 h2 => by simp [regexSearchR, baseReadFile, h1, h2],
    fun cs fs st q h1 h2 => by simp [kmpSearchR, baseReadFile, h1, h2],
    fun cs fs st q h1 h2 => by simp [rkSearchR, baseReadFile, h1, h2],
    fun cs fs st q h1 h2 => by simp [binSearchQ, binReadAndSort, baseReadFile, h1, h2],
    ?_,
    fun fs fs' st q => rfl,
    fun cs fs fs' st q => rfl,
    fun cs fs fs' st q => rfl,
    fun cs fs fs' st q => rfl,
    fun cs fs fs' st q => ⟨rfl, rfl⟩,
    fun content content' st q => rfl,
    fun content content' st q => rfl,
    fun fp cs content content' st q => rfl,
    fun content st q h => by simp [bmSearchQ, h],
    fun content st q h => by simp [bmSearchQ, h],
    by decide⟩
  intro t0 t1 ht
  have hf1 : fileLines "a\x0a" = ["a"] := by decide
  have hf2 : fileLines "a\x0ab\x0a" = ["a", "b"] := by decide
  have h1 : (binSearchQ true true ⟨"a\x0a", t0⟩ (binInit true true ⟨"a\x0a", t0⟩) "a").2
      = ⟨["a"], ["a"], t0⟩ := by
    simp [binSearchQ, binInit, binReadAndSort, baseReadFile, hf1]
    decide
  rw [h1]
  have hle : ¬ (t1 ≤ t0) := by omega
  simp [binSearchQ, binReadAndSort, baseReadFile, hle, hf2]
  decide

/-- C2 witness: the amended reload semantics at concrete inputs — a
cached loader state with stamp 5 queried against a file of mtime 3 is
reused by every base-loader engine; against a file of mtime 7 the
loader re-reads; the binary append-with-bumped-mtime scenario finds the
new line; a boyermoore engine with a nonempty cache ignores the file,
and one with an empty cache re-reads it. -/
theorem c2_amended_reload_semantics_witness :
    baseReadFile true ⟨"x\x0a", 3⟩ ⟨["a"], 5⟩ = ⟨["a"], 5⟩ ∧
    baseReadFile true ⟨"b\x0a", 7⟩ ⟨["a"], 5⟩ = ⟨["b"], 7⟩ ∧
    simpleSearchR true ⟨"x\x0a", 3⟩ ⟨["a"], 5⟩ "a" = (false, ⟨["a"], 5⟩) ∧
    regexSearchR true true ⟨"x\x0a", 3⟩ ⟨["a"], 5⟩ "a" = (true, ⟨["a"], 5⟩) ∧
    kmpSearchR true true ⟨"x\x0a", 3⟩ ⟨["a"], 5⟩ "a" = ((some true, 1), ⟨["a"], 5⟩) ∧
    rkSearchR true true ⟨"x\x0a", 3⟩ ⟨["a"], 5⟩ "a" = ((true, 1), ⟨["a"], 5⟩) ∧
    binSearchQ true true ⟨"x\x0a", 3⟩ ⟨["a"], ["a"], 5⟩ "a" = (true, ⟨["a"], ["a"], 5⟩) ∧
    (binSearchQ true true ⟨"a\x0ab\x0a", 6⟩
      (binSearchQ true true ⟨"a\x0a", 5⟩ (binInit true true ⟨"a\x0a", 5⟩) "a").2
      "b").1 = true ∧
    bmSearchQ false "x\x0a" ⟨"c", ["c"]⟩ "c" = ((some true, 1), ⟨"c", ["c"]⟩) ∧
    (bmSearchQ false "kiwi\x0a" ⟨"", []⟩ "z").2 = ⟨"kiwi\x0a", ["kiwi", ""]⟩ := by
  obtain ⟨-, -, -, -, hB, hCs, hCr, hCk, hCrk, hCb, hD, -, -, -, -, -, -, -, -, hF1,
    hF2, -⟩ := c2_amended_reload_semantics
  exact ⟨(hB true ⟨"x\x0a", 3⟩ ⟨["a"], 5⟩).1 (by decide) (by decide),
    (hB true ⟨"b\x0a", 7⟩ ⟨["a"], 5⟩).2 (by decide),
    hCs ⟨"x\x0a", 3⟩ ⟨["a"], 5⟩ "a" (by decide) (by decide),
    hCr true ⟨"x\x0a", 3⟩ ⟨["a"], 5⟩ "a" (by decide) (by decide),
    hCk true ⟨"x\x0a", 3⟩ ⟨["a"], 5⟩ "a" (by decide) (by decide),
    hCrk true ⟨"x\x0a", 3⟩ ⟨["a"], 5⟩ "a" (by decide) (by decide),
    hCb true ⟨"x\x0a", 3⟩ ⟨["a"], ["a"], 5⟩ "a" (by decide) (by decide),
    hD 5 6 (by decide),
    hF1 "x\x0a" ⟨"c", ["c"]⟩ "c" (by decide),
    hF2 "kiwi\x0a" ⟨"", []⟩ "z" (by decide)⟩

/-- C4 as amended: over an empty corpus file every engine of the catalog
answers `false` for every *nonempty* query (and the total embedding
shows no indexing step can fault); for the empty query every engine
answers `false` as well — except `boyermoore`, which answers `true`
(see `c4_counterexample_bm_empty_query`). -/
theorem c4_amended_empty_corpus :
    (∀ q : String, q ≠ "" →
      simpleSearch (simpleInit ⟨"", 0⟩) q = false ∧
      inMemorySearch "" q = false ∧
      (binSearchQ true false ⟨"", 0⟩ (binInit true false ⟨"", 0⟩) q).1 = false ∧
      hashSearch "" q = false ∧
      (∀ cs : Bool, regexSearch cs (regexInit cs ⟨"", 0⟩) q = false) ∧
      (∀ fp : String → Bool,
        (bloomSearchQ fp true false "" (bloomInit true false "") q).1 = false) ∧
      (bmSearchQ false "" (bmInit false "") q).1.1 = some false ∧
      (kmpSearchQ true (kmpInit true ⟨"", 0⟩) q).1 = some false ∧
      (rkSearchQ true (rkInit true ⟨"", 0⟩) q).1 = false) ∧
    (simpleSearch (simpleInit ⟨"", 0⟩) "" = false ∧
      inMemorySearch "" "" = false ∧
      (binSearchQ true false ⟨"", 0⟩ (binInit true false ⟨"", 0⟩) "").1 = false ∧
      hashSearch "" "" = false ∧
      (∀ cs : Bool, regexSearch cs (regexInit cs ⟨"", 0⟩) "" = false) ∧
      (∀ fp : String → Bool,
        (bloomSearchQ fp true false "" (bloomInit true false "") "").1 = false) ∧
      (kmpSearchQ true (kmpInit true ⟨"", 0⟩) "").1 = some false ∧
      (rkSearchQ true (rkInit true ⟨"", 0⟩) "").1 = false) ∧
    (bmSearchQ false "" (bmInit false "") "").1.1 = some true := by
  have h0 : fileLines "" = ([] : List String) := by decide
  refine ⟨fun q hq => ?_, ⟨by decide, by decide, by decide, by decide,
    fun cs => rfl,
    fun fp => by simp [bloomSearchQ, bloomInit, bloomRead, bloomMember, h0],
    by decide, by decide⟩, by decide⟩
  have hdata : q.data ≠ [] := by
    intro h
    apply hq
    cases q with
    | mk d => simp at h; simp [h]
  refine ⟨simpleSearch_always_false _ _, rfl, rfl, rfl,
    fun cs => rfl,
    fun fp => by simp [bloomSearchQ, bloomInit, bloomRead, bloomMember, h0],
    ?_, rfl, rfl⟩
  cases hd : q.data with
  | nil => exact absurd hd hdata
  | cons c cs =>
    simp [bmSearchQ, bmInit, bmRead, bmSplitNL, splitOnSep, bmLinesGo, hd]

/-- C4 witness: the amended statement instantiated at the nonempty query
`"x"` over the empty corpus. -/
theorem c4_amended_empty_corpus_witness :
    ("x" : String) ≠ "" ∧
    simpleSearch (simpleInit ⟨"", 0⟩) "x" = false ∧
    inMemorySearch "" "x" = false ∧
    (binSearchQ true false ⟨"", 0⟩ (binInit true false ⟨"", 0⟩) "x").1 = false ∧
    hashSearch "" "x" = false ∧
    regexSearch true (regexInit true ⟨"", 0⟩) "x" = false ∧
    (bloomSearchQ (fun _ => true) true false "" (bloomInit true false "") "x").1 = false ∧
    (bmSearchQ false "" (bmInit false "") "x").1.1 = some false ∧
    (kmpSearchQ true (kmpInit true ⟨"", 0⟩) "x").1 = some false ∧
    (rkSearchQ true (rkInit true ⟨"", 0⟩) "x").1 = false := by
  have h := c4_amended_empty_corpus.1 "x" (by decide)
  exact ⟨by decide, h.1, h.2.1, h.2.2.1, h.2.2.2.1, h.2.2.2.2.1 true,
    h.2.2.2.2.2.1 (fun _ => true), h.2.2.2.2.2.2.1, h.2.2.2.2.2.2.2.1,
    h.2.2.2.2.2.2.2.2⟩

/-! ## Claim C5 -/

/-- C5: for the bloom variant (any false-positive behaviour `fp` of the
filter, any case flag and either reread mode), `search(q)` is true
exactly when the case-folded query equals some corpus line: a filter
miss short-circuits the conjunction to `false`, and because every corpus
line was added to the filter, a line that is in the exact set always
passes the filter (no false negatives), while a filter hit is confirmed
against the exact set before `true` is returned (no false positives). -/
theorem c5_bloom_search_exact (fp : String → Bool) (cs reread : Bool)
    (content : String) (q : String) :
    (bloomSearchQ fp cs reread content (bloomInit cs reread content) q).1 =
      ((fileLines content).map (fun l => if cs then l else strLower l)).contains
        (if cs then q else strLower q) := by
  cases reread <;>
    simp only [bloomSearchQ, bloomInit, bloomRead, bloomMember, if_true, if_false,
      Bool.false_eq_true, ite_false, ite_true] <;>
    cases h : ((fileLines content).map (fun l => if cs then l else strLower l)).contains
        (if cs then q else strLower q) <;>
    simp

/-! ## Claim C6 -/

/-- C10, counterexample: the registry's first access is an
unsynchronised check-then-act (`if algo_key not in
self.algorithm_instances: ... construct ...` with no lock), so two
workers whose membership checks both precede either construction each
construct an engine.  The schedule below interleaves exactly that way:
both workers finish (`pc = 3`), two constructions have happened
(`nextId = 2`), and the workers end up using *different* instances —
refuting both the at-most-one-construction and the shared-instance part
of the claim. -/
theorem c10_counterexample_duplicate_construction :
    (runSched [false, true, false, false, true, true] (regInit, wInit, wInit)).2.1.pc = 3 ∧
    (runSched [false, true, false, false, true, true] (regInit, wInit, wInit)).2.2.pc = 3 ∧
    (runSched [false, true, false, false, true, true] (regInit, wInit, wInit)).1.nextId = 2 ∧
    (runSched [false, true, false, false, true, true] (regInit, wInit, wInit)).2.1.engine ≠
      (runSched [false, true, false, false, true, true] (regInit, wInit, wInit)).2.2.engine := by
  decide

/-- C10 as amended: when the two first accesses are sequential (either
worker runs its whole `setup` before the other starts), exactly one
engine is constructed and both workers use that same instance; under
arbitrary interleaving the unsynchronised check-then-act still
constructs at most one engine *per worker* (at most two in total), but
not at most one — see the counterexample. -/
theorem c10_amended_construct_once_only_sequential :
    ((runSched [false, false, false, true, true, true] (regInit, wInit, wInit)).1.nextId = 1 ∧
      (runSched [false, false, false, true, true, true] (regInit, wInit, wInit)).2.1.engine = some 0 ∧
      (runSched [false, false, false, true, true, true] (regInit, wInit, wInit)).2.2.engine = some 0) ∧
    ((runSched [true, true, true, false, false, false] (regInit, wInit, wInit)).1.nextId = 1 ∧
      (runSched [true, true, true, false, false, false] (regInit, wInit, wInit)).2.1.engine = some 0 ∧
      (runSched [true, true, true, false, false, false] (regInit, wInit, wInit)).2.2.engine = some 0) ∧
    (∀ sched : List Bool,
      (runSched sched (regInit, wInit, wInit)).1.nextId ≤ 2) := by
  refine ⟨by decide, by decide, fun sched => ?_⟩
  have h := runSched_nextId sched regInit wInit wInit (by decide)
  have h1 := wContrib_le_one (runSched sched (regInit, wInit, wInit)).2.1
  have h2 := wContrib_le_one (runSched sched (regInit, wInit, wInit)).2.2
  omega

/-! ## Receive/handle lemmas for the protocol claims -/

/-- A complete single-line request: when the head group is a newline-
terminated line whose body fits the payload cap, contains no interior
newline and is valid (ASCII) text, the receive loop returns the whole
line and leaves exactly the later groups unread. -/
theorem receiveRequest_line (s : List Nat) (rest : List (List Nat))
    (hlen : s.length < maxPayloadSize) (h10 : 10 ∉ s)
    (hascii : ∀ b ∈ s, b ≤ 0x7F) :
    receiveRequest ((s ++ [10]) :: rest) = (.ok (s ++ [10]), rest) := by
  have hmin : maxPayloadSize ⊓ 4096 = 1024 := by norm_num [maxPayloadSize]
  have htake : (s ++ [10]).take 1024 = s ++ [10] := by
    apply List.take_of_length_le
    simp [maxPayloadSize] at hlen ⊢
    omega
  have hdrop : (s ++ [10]).drop 1024 = [] := by
    apply List.drop_eq_nil_of_le
    simp [maxPayloadSize] at hlen ⊢
    omega
  have hmem : (s ++ [10]).contains 10 = true := by
    simp [List.elem_eq_mem]
  have htw : (s ++ [10]).takeWhile (fun b => b ≠ 10) = s :=
    takeWhile_ne10_append s h10
  have hvalid : utf8ValidB s = true := by
    simp [utf8ValidB, utf8Decode_ascii s hascii]
  rw [receiveRequest, receiveAuxF]
  simp only [List.length_nil, Nat.sub_zero, hmin, htake, hdrop, hmem, hvalid,
    rstripNul_append10, List.nil_append, decide_not]
  simp only [decide_not] at htw
  simp [htw, hvalid, maxPayloadSize]

/-- An over-long head group with no terminator: the first `recv` returns
the first 1024 bytes, and the next loop iteration finds the budget
exhausted and raises the payload error. -/
theorem receiveRequest_too_large (g : List Nat) (rest : List (List Nat))
    (hlen : maxPayloadSize < g.length) (h10 : 10 ∉ g) :
    (receiveRequest (g :: rest)).1 = .tooLarge := by
  have hmin : maxPayloadSize ⊓ 4096 = 1024 := by norm_num [maxPayloadSize]
  have htakelen : (g.take 1024).length = 1024 := by
    simp [List.length_take, maxPayloadSize] at hlen ⊢
    omega
  have htakene : ¬ (g.take 1024 = []) := by
    intro h
    rw [h] at htakelen
    simp at htakelen
  have hdropne : ¬ (g.drop 1024 = []) := by
    intro h
    have := List.length_drop 1024 g
    rw [h] at this
    simp [maxPayloadSize] at hlen this
    omega
  have hmem : (g.take 1024).contains 10 = false := by
    simp only [List.elem_eq_mem, decide_eq_false_iff_not]
    exact fun hm => h10 (List.take_subset 1024 g hm)
  obtain ⟨n, hn⟩ : ∃ n, streamSize (g :: rest) = n + 1 := by
    refine ⟨streamSize (g :: rest) - 1, ?_⟩
    simp [streamSize]
    omega
  rw [receiveRequest, receiveAuxF]
  simp only [List.length_nil, Nat.sub_zero, hmin, htakene, hmem, if_false,
    Bool.false_eq_true, hdropne]
  rw [hn, receiveAuxF]
  have hdata : (([] : List Nat) ++ List.take 1024 g).length = 1024 := by
    simpa using htakelen
  have hge : 1024 ≤ g.length := by
    simp [maxPayloadSize] at hlen
    omega
  simp [hdata, maxPayloadSize, hge]

/-- An exhausted stream ends the session with no further output: `recv`
returns `b''` and the handler breaks out of its loop. -/
theorem handleLoopF_nil (search : List Nat → Bool) (caseSensitive : Bool) (fuel : Nat) :
    handleLoopF search caseSensitive (fuel + 1) [] = ([], []) := rfl

/-- One round of the handler loop on a well-formed single-line request:
the line is received whole, decoded, NUL- and whitespace-stripped, and
either the empty-request error is emitted (connection staying in the
loop) or the engine is consulted and the verdict line written. -/
theorem handleLoopF_step (search : List Nat → Bool) (caseSensitive : Bool)
    (fuel : Nat) (s : List Nat) (rest : List (List Nat))
    (hlen : s.length < maxPayloadSize) (h10 : 10 ∉ s)
    (hascii : ∀ b ∈ s, b ≤ 0x7F) :
    handleLoopF search caseSensitive (fuel + 1) ((s ++ [10]) :: rest) =
      (if pyStrip s = [] then
        ("ERROR: Empty request\x0a" ::
            (handleLoopF search caseSensitive fuel rest).1,
          (handleLoopF search caseSensitive fuel rest).2)
      else
        (let q' := if caseSensitive then pyStrip s else (pyStrip s).map lowerCp
         ((if search q' then "STRING EXISTS\x0a" else "STRING NOT FOUND\x0a") ::
            (handleLoopF search caseSensitive fuel rest).1,
          q' :: (handleLoopF search caseSensitive fuel rest).2))) := by
  have hdec : utf8Decode (s ++ [10]) = some (s ++ [10]) := by
    apply utf8Decode_ascii
    intro b hb
    rcases List.mem_append.mp hb with h | h
    · exact hascii b h
    · simp at h
      omega
  rw [handleLoopF, receiveRequest_line s rest hlen h10 hascii]
  simp only [hdec, pyStrip_append10]

/-- A whole session consisting of one valid, nonempty, in-budget query
line: exactly one verdict line is written and the engine is consulted
exactly once, on the stripped query. -/
theorem handleConn_single_query (search : List Nat → Bool) (s : List Nat)
    (hascii : ∀ b ∈ s, b ≤ 0x7F) (h10 : 10 ∉ s)
    (hlen : s.length < maxPayloadSize) (hne : pyStrip s ≠ []) :
    handleConn search true [s ++ [10]] =
      ([if search (pyStrip s) then "STRING EXISTS\x0a" else "STRING NOT FOUND\x0a"],
       [pyStrip s]) := by
  have hss : streamSize [s ++ [10]] = s.length + 2 := by
    simp [streamSize]
  rw [handleConn, hss]
  rw [handleLoopF_step search true (s.length + 2) s [] hlen h10 hascii]
  rw [if_neg hne]
  rw [show s.length + 2 = (s.length + 1) + 1 from rfl, handleLoopF_nil]
  simp

/-! ## Claim C7 -/

/-- C7: receiving a line that is empty after decoding (here a bare
`"\n"`), the handler writes exactly `"ERROR: Empty request\n"` and
*continues* its loop — the connection stays open, and a subsequent valid
query `q` on the same connection is received, stripped and answered
normally by the engine.  Stated for every engine behaviour `search` and
every ASCII query line that fits the payload budget. -/
theorem c7_empty_request_connection_stays_open (search : List Nat → Bool)
    (q : List Nat) (hascii : ∀ b ∈ q, b ≤ 0x7F) (h10 : 10 ∉ q)
    (hlen : q.length < maxPayloadSize) (hne : pyStrip q ≠ []) :
    handleConn search true [[10], q ++ [10]] =
      (["ERROR: Empty request\x0a",
        if search (pyStrip q) then "STRING EXISTS\x0a" else "STRING NOT FOUND\x0a"],
       [pyStrip q]) := by
  have hss : streamSize [[10], q ++ [10]] = q.length + 4 := by
    simp [streamSize]
    omega
  rw [handleConn, hss]
  show handleLoopF search true (q.length + 4 + 1) [([] : List Nat) ++ [10], q ++ [10]] = _
  rw [handleLoopF_step search true (q.length + 4) [] [q ++ [10]]
    (by norm_num [maxPayloadSize]) (by simp) (by simp)]
  rw [if_pos (by rfl)]
  rw [show q.length + 4 = (q.length + 3) + 1 from rfl]
  rw [handleLoopF_step search true (q.length + 3) q [] hlen h10 hascii]
  rw [if_neg hne]
  rw [show q.length + 3 = (q.length + 2) + 1 from rfl, handleLoopF_nil]
  simp

/-- C7 witness: the empty line followed by the query `"ap"`, against an
engine that recognises exactly `"ap"`. -/
theorem c7_empty_request_connection_stays_open_witness :
    handleConn (fun l => l = [97, 112]) true [[10], [97, 112, 10]] =
      (["ERROR: Empty request\x0a", "STRING EXISTS\x0a"], [[97, 112]]) :=
  c7_empty_request_connection_stays_open (fun l => decide (l = [97, 112])) [97, 112]
    (by decide) (by decide) (by decide) (by decide)

/-! ## Claim C8 -/

/-- C8: (1) when a client's payload exceeds the 1024-byte cap with no
`\n` terminator, the handler writes exactly
`"ERROR: Payload too large\n"` and terminates the connection — no
further client data is processed and the engine is never consulted
(the query list is empty); (2) a request of at most 1024 bytes
*including* its terminator is processed normally: the verdict line is
written and the engine consulted once. -/
theorem c8_payload_cap (search : List Nat → Bool) :
    (∀ (caseSensitive : Bool) (g : List Nat) (rest : List (List Nat)),
      maxPayloadSize < g.length → 10 ∉ g →
      handleConn search caseSensitive (g :: rest) =
        (["ERROR: Payload too large\x0a"], [])) ∧
    (∀ s : List Nat,
      s.length + 1 ≤ maxPayloadSize → (∀ b ∈ s, b ≤ 0x7F) → 10 ∉ s →
      pyStrip s ≠ [] →
      handleConn search true [s ++ [10]] =
        ([if search (pyStrip s) then "STRING EXISTS\x0a" else "STRING NOT FOUND\x0a"],
         [pyStrip s])) := by
  constructor
  · intro cs g rest hlen h10
    rw [handleConn, handleLoopF]
    have h := receiveRequest_too_large g rest hlen h10
    rcases hrr : receiveRequest (g :: rest) with ⟨r, p⟩
    rw [hrr] at h
    simp at h
    subst h
    rfl
  · intro s hlen hascii h10 hne
    exact handleConn_single_query search s hascii h10
      (by simp [maxPayloadSize] at hlen ⊢; omega) hne

/-- C8 witness: a 1025-byte unterminated payload is rejected with the
connection closed and no engine call; the 3-byte request `"ap\n"` is
answered normally. -/
theorem c8_payload_cap_witness :
    handleConn (fun l => l = [97, 112]) true [List.replicate 1025 97] =
      (["ERROR: Payload too large\x0a"], []) ∧
    handleConn (fun l => l = [97, 112]) true [[97, 112, 10]] =
      (["STRING EXISTS\x0a"], [[97, 112]]) :=
  ⟨(c8_payload_cap (fun l => decide (l = [97, 112]))).1 true (List.replicate 1025 97) []
      (by decide) (by decide),
   (c8_payload_cap (fun l => decide (l = [97, 112]))).2 [97, 112]
      (by decide) (by decide) (by decide) (by decide)⟩

/-! ## Claim C9, amended -/

theorem stripTrail_decomp (p : Nat → Bool) (s : List Nat) :
    ∃ post, s = stripTrail p s ++ post := by
  rcases List.dropWhile_suffix (l := s.reverse) p with ⟨t, ht⟩
  refine ⟨t.reverse, ?_⟩
  have : s.reverse.reverse = (t ++ s.reverse.dropWhile p).reverse := by rw [ht]
  simpa [stripTrail] using this

theorem pyStrip_decomp (s : List Nat) :
    ∃ pre post, s = pre ++ pyStrip s ++ post := by
  rcases stripTrail_decomp pyStrWS s with ⟨post, hpost⟩
  rcases List.dropWhile_suffix (l := stripTrail pyStrWS s) pyStrWS with ⟨pre, hpre⟩
  refine ⟨pre, post, ?_⟩
  show s = pre ++ List.dropWhile pyStrWS (stripTrail pyStrWS s) ++ post
  rw [hpre]
  exact hpost

theorem pyStrip_head_not_ws {s : List Nat} {hd : Nat}
    (h : (pyStrip s).head? = some hd) : pyStrWS hd = false :=
  head_dropWhile_false h

theorem pyStrip_getLast_not_ws {s : List Nat} {lst : Nat}
    (h : (pyStrip s).getLast? = some lst) : pyStrWS lst = false := by
  have hne : pyStrip s ≠ [] := by
    intro he
    rw [he] at h
    simp at h
  rcases List.dropWhile_suffix (l := stripTrail pyStrWS s) pyStrWS with ⟨pre, hpre⟩
  have hne' : List.dropWhile pyStrWS (stripTrail pyStrWS s) ≠ [] := hne
  have h1 : (stripTrail pyStrWS s).getLast? = some lst := by
    rw [← hpre, List.getLast?_append_of_ne_nil _ hne']
    exact h
  have h2 : (s.reverse.dropWhile pyStrWS).head? = some lst := by
    have := h1
    rw [show stripTrail pyStrWS s = (s.reverse.dropWhile pyStrWS).reverse from rfl,
      List.getLast?_reverse] at this
    exact this
  exact head_dropWhile_false h2

/-- C9 as amended: before matching, the handler strips trailing NUL
bytes from the payload and then applies Python `str.strip()` to the
decoded line — removing *all* leading and trailing whitespace, not only
trailing `\r`/`\n` — and passes the result to the engine unchanged (the
configuration here being case-sensitive): the engine receives exactly
`pyStrip s`, which is a contiguous interior segment of the line whose
first and last characters are not whitespace; interior bytes, including
interior spaces and tabs, are untouched. -/
theorem c9_amended_strip_both_ends (search : List Nat → Bool) (s : List Nat)
    (hascii : ∀ b ∈ s, b ≤ 0x7F) (h10 : 10 ∉ s)
    (hlen : s.length < maxPayloadSize) (hne : pyStrip s ≠ []) :
    (handleConn search true [s ++ [10]]).2 = [pyStrip s] ∧
    (∃ pre post, s = pre ++ pyStrip s ++ post) ∧
    (∀ hd, (pyStrip s).head? = some hd → pyStrWS hd = false) ∧
    (∀ lst, (pyStrip s).getLast? = some lst → pyStrWS lst = false) := by
  refine ⟨?_, pyStrip_decomp s, fun hd h => pyStrip_head_not_ws h,
    fun lst h => pyStrip_getLast_not_ws h⟩
  rw [handleConn_single_query search s hascii h10 hlen hne]

/-- C9 witness: the amended semantics at the line `" ap "` (space,
`"ap"`, space): the engine receives `"ap"`. -/
theorem c9_amended_strip_both_ends_witness :
    (handleConn (fun _ => true) true [[32, 97, 112, 32, 10]]).2 = [pyStrip [32, 97, 112, 32]] ∧
    (∃ pre post, [(32 : Nat), 97, 112, 32] = pre ++ pyStrip [32, 97, 112, 32] ++ post) ∧
    (∀ hd, (pyStrip [(32 : Nat), 97, 112, 32]).head? = some hd → pyStrWS hd = false) ∧
    (∀ lst, (pyStrip [(32 : Nat), 97, 112, 32]).getLast? = some lst → pyStrWS lst = false) :=
  c9_amended_strip_both_ends (fun _ => true) [32, 97, 112, 32]
    (by decide) (by decide) (by decide) (by decide)
